import Mathlib

/-!
funkeys: the event translator `handle_event`.

A shallow embedding of `handle_event` (with `send_event` and `send_syn`) from `funkeys.cpp`,
and theorems about the batches of events it writes to the cloned uinput device.

Modelling choices:

* `input_event` keeps the three fields `send_event` forwards (`type`, `code`, `value`); the
  `time` field is never read or written by the translator.
* The two function-local `static` variables of `handle_event` are the record `Statics`, passed
  in and returned.
* `std::chrono::system_clock::now()` is the argument `now`.  A call evaluates it at most once
  (either in the tap test, which needs `value == 0`, or in the fresh-press case, which needs
  `value == 1`).  Time points are counts of clock ticks since the epoch, ticks being nanoseconds.
* Codes, values and time points are unbounded integers.  The translator does no arithmetic on
  codes and values, and the one subtraction of time points stays within 64 bits for readings of
  a real clock, so no wrap-around is modelled.
* The cloned device is the log of events written to it.  `libevdev_uinput_write_event` belongs
  to libevdev, so its return code is a parameter `wr`; a non-zero code makes `send_event` throw.
-/

namespace Funkeys

/-! ## Constants of `linux/input-event-codes.h` -/

def EV_SYN : Nat := 0
def EV_KEY : Nat := 1
def EV_REL : Nat := 2
def EV_ABS : Nat := 3
def EV_MSC : Nat := 4
def EV_LED : Nat := 17

def SYN_REPORT : Nat := 0
def MSC_SCAN : Nat := 4

def KEY_ENTER : Nat := 28
def KEY_LEFTCTRL : Nat := 29
def KEY_CAPSLOCK : Nat := 58
def KEY_RIGHTCTRL : Nat := 97

/-! ## Data model -/

/-- The part of `struct input_event` that reaches the sink: `type`, `code` (both `__u16`) and
`value` (`__s32`). -/
structure input_event where
  type : Nat
  code : Nat
  value : Int
deriving DecidableEq, Repr

/-- The `static` locals of `handle_event`: `enter_pending` and `last_enter_press`. -/
structure Statics where
  enter_pending : Bool
  last_enter_press : Int
deriving DecidableEq, Repr

/-- The statics at process start: `enter_pending = false`, `last_enter_press` the epoch. -/
def Statics.init : Statics := ⟨false, 0⟩

/-- Clock ticks (nanoseconds) in one millisecond. -/
def ticks_per_ms : Int := 1000000

/-- The tap window `auto delay = 200ms`, in clock ticks. -/
def delay : Int := 200 * ticks_per_ms

/-- Code that writes to the cloned device: it may throw (the exception carries the error code
given to `strerror`) and it extends the log of events the device has received. -/
abbrev Uinput := ExceptT Int (StateM (List input_event))

/-- The return code of `libevdev_uinput_write_event`, given the log so far and the event. -/
abbrev WriteEvent := List input_event → input_event → Int

/-- A device that accepts every write. -/
def uinput_ok : WriteEvent := fun _ _ => 0

/-! ## The translator -/

/-- `send_event`: write one event to the device, throwing when the write reports an error. -/
def send_event (wr : WriteEvent) (ev : input_event) : Uinput Unit := do
  let dev ← get
  let err := wr dev ev
  if err ≠ 0 then
    throw err
  set (dev ++ [ev])

/-- `send_syn`: write the sync marker `{EV_SYN, SYN_REPORT, 0}`. -/
def send_syn (wr : WriteEvent) : Uinput Unit :=
  send_event wr ⟨EV_SYN, SYN_REPORT, 0⟩

/-- `handle_event`: translate one event read from the keyboard and write the result to the
cloned device.  Returns the statics as the call leaves them. -/
def handle_event (wr : WriteEvent) (st : Statics) (ev : input_event) (now : Int) :
    Uinput Statics := do
  let mut enter_pending := st.enter_pending
  let mut last_enter_press := st.last_enter_press
  let mut ev := ev
  if ev.type = EV_KEY then
    if ev.code = KEY_ENTER ∧ ev.value = 0 ∧ enter_pending = true
        ∧ now - last_enter_press < delay then
      enter_pending := false
      send_event wr ⟨EV_KEY, KEY_RIGHTCTRL, 0⟩
      send_syn wr
      send_event wr ⟨EV_MSC, MSC_SCAN, 458792⟩
      send_event wr ⟨EV_KEY, KEY_ENTER, 1⟩
      send_syn wr
      send_event wr ⟨EV_MSC, MSC_SCAN, 458792⟩
      ev := { ev with code := KEY_ENTER }
    else
      enter_pending := false
      if ev.code = KEY_CAPSLOCK then
        ev := { ev with code := KEY_LEFTCTRL }
      else if ev.code = KEY_LEFTCTRL then
        ev := { ev with code := KEY_CAPSLOCK }
      else if ev.code = KEY_RIGHTCTRL then
        ev := { ev with code := KEY_ENTER }
      else if ev.code = KEY_ENTER then
        enter_pending := true
        ev := { ev with code := KEY_RIGHTCTRL }
        if ev.value = 1 then
          last_enter_press := now
      else
        pure ()
  send_event wr ev
  return ⟨enter_pending, last_enter_press⟩

/-- One call of `handle_event` on a device whose log is `dev`: the statics after the call (or
the exception thrown) and the log after the call. -/
def call (wr : WriteEvent) (st : Statics) (ev : input_event) (now : Int)
    (dev : List input_event) : Except Int Statics × List input_event :=
  (handle_event wr st ev now).run.run dev

/-- The driver loop of `main` on the events it reads successfully, each paired with the clock
reading of its call: one `handle_event` per event, the statics persisting from call to call. -/
def handle_events (wr : WriteEvent) (st : Statics) : List (input_event × Int) → Uinput Statics
  | [] => pure st
  | (ev, now) :: rest => do
    let st1 ← handle_event wr st ev now
    handle_events wr st1 rest

/-- A run of `handle_events` on a device whose log is `dev`. -/
def calls (wr : WriteEvent) (st : Statics) (evs : List (input_event × Int))
    (dev : List input_event) : Except Int Statics × List input_event :=
  (handle_events wr st evs).run.run dev

/-- The batch of one call: the events it writes, on a device that accepts every write. -/
def emitted (st : Statics) (ev : input_event) (now : Int) : List input_event :=
  (call uinput_ok st ev now []).2

/-- The statics one call leaves (or the exception), on a device that accepts every write. -/
def statics_after (st : Statics) (ev : input_event) (now : Int) : Except Int Statics :=
  (call uinput_ok st ev now []).1

/-- The sync marker written by `send_syn`. -/
def sync_marker : input_event := ⟨EV_SYN, SYN_REPORT, 0⟩

/-- The events the tap branch of `handle_event` writes for an Enter release, in order: the six
synthetic events followed by the release itself with code `KEY_ENTER`. -/
def tap_sequence : List input_event :=
  [⟨EV_KEY, KEY_RIGHTCTRL, 0⟩, ⟨EV_SYN, SYN_REPORT, 0⟩, ⟨EV_MSC, MSC_SCAN, 458792⟩,
   ⟨EV_KEY, KEY_ENTER, 1⟩, ⟨EV_SYN, SYN_REPORT, 0⟩, ⟨EV_MSC, MSC_SCAN, 458792⟩,
   ⟨EV_KEY, KEY_ENTER, 0⟩]

/-! ## Running the translator on an accepting device -/

theorem send_event_run (ev : input_event) (dev : List input_event) :
    StateT.run (ExceptT.run (send_event uinput_ok ev)) dev = (Except.ok (), dev ++ [ev]) := by
  rfl

/-- On an accepting device a call appends its batch to the log, whatever the log held, and
its effect on the statics does not depend on the log. -/
theorem call_eq (st : Statics) (ev : input_event) (now : Int) (dev : List input_event) :
    call uinput_ok st ev now dev = (statics_after st ev now, dev ++ emitted st ev now) := by
  unfold statics_after emitted call handle_event
  simp only [send_syn]
  split_ifs <;> simp [send_event_run, Except.map]

/-- A write the device rejects makes the call throw the error code, nothing being written. -/
theorem call_write_error (e : Int) (he : e ≠ 0) (st : Statics) (t c : Nat) (v now : Int)
    (ht : t ≠ EV_KEY) (dev : List input_event) :
    call (fun _ _ => e) st ⟨t, c, v⟩ now dev = (Except.error e, dev) := by
  simp [call, handle_event, ht, send_event, he]
  rfl

/-- The driver loop continues from the statics and the log the first call leaves. -/
theorem calls_cons (st st1 : Statics) (ev : input_event) (now : Int)
    (rest : List (input_event × Int)) (dev : List input_event)
    (h : statics_after st ev now = Except.ok st1) :
    calls uinput_ok st ((ev, now) :: rest) dev
      = calls uinput_ok st1 rest (dev ++ emitted st ev now) := by
  have hc := call_eq st ev now dev
  rw [h] at hc
  unfold call at hc
  simp [calls, handle_events, hc]

/-- Enter autorepeats in the pending state keep the statics and write RightCtrl autorepeats. -/
theorem calls_autorepeats (t0 : Int) (ts : List Int) (dev : List input_event) :
    calls uinput_ok ⟨true, t0⟩ (ts.map fun ti => (⟨EV_KEY, KEY_ENTER, 2⟩, ti)) dev
      = (Except.ok ⟨true, t0⟩, dev ++ ts.map fun _ => ⟨EV_KEY, KEY_RIGHTCTRL, 2⟩) := by
  induction ts generalizing dev with
  | nil => simp [calls, handle_events]
  | cons ti ts ih =>
    have hs : statics_after ⟨true, t0⟩ ⟨EV_KEY, KEY_ENTER, 2⟩ ti = Except.ok ⟨true, t0⟩ := by
      simp [statics_after, call, handle_event, send_event_run, Except.map,
        KEY_ENTER, KEY_CAPSLOCK, KEY_LEFTCTRL, KEY_RIGHTCTRL]
    have he : emitted ⟨true, t0⟩ ⟨EV_KEY, KEY_ENTER, 2⟩ ti = [⟨EV_KEY, KEY_RIGHTCTRL, 2⟩] := by
      simp [emitted, call, handle_event, send_event_run,
        KEY_ENTER, KEY_CAPSLOCK, KEY_LEFTCTRL, KEY_RIGHTCTRL]
    rw [List.map_cons, calls_cons _ _ _ _ _ _ hs, ih, he]
    simp

/-! ## Enter: tap, hold, interleaved key -/

/-- C1 (as stated, refuted): from the initial statics a fresh Enter press at 0 ms leaves
the statics pending with anchor 0, and the Enter release 150 ms later writes the seven events
of the tap sequence, the last one being the Enter release; the batch is not the eight-item list
of the claim, which has a sync marker after the Enter release. -/
theorem enter_tap_batch_has_no_trailing_sync :
    statics_after Statics.init ⟨EV_KEY, KEY_ENTER, 1⟩ 0 = Except.ok ⟨true, 0⟩ ∧
    emitted ⟨true, 0⟩ ⟨EV_KEY, KEY_ENTER, 0⟩ (150 * ticks_per_ms) =
      [⟨EV_KEY, KEY_RIGHTCTRL, 0⟩, ⟨EV_SYN, SYN_REPORT, 0⟩, ⟨EV_MSC, MSC_SCAN, 458792⟩,
       ⟨EV_KEY, KEY_ENTER, 1⟩, ⟨EV_SYN, SYN_REPORT, 0⟩, ⟨EV_MSC, MSC_SCAN, 458792⟩,
       ⟨EV_KEY, KEY_ENTER, 0⟩] ∧
    emitted ⟨true, 0⟩ ⟨EV_KEY, KEY_ENTER, 0⟩ (150 * ticks_per_ms) ≠
      [⟨EV_KEY, KEY_RIGHTCTRL, 0⟩, ⟨EV_SYN, SYN_REPORT, 0⟩, ⟨EV_MSC, MSC_SCAN, 458792⟩,
       ⟨EV_KEY, KEY_ENTER, 1⟩, ⟨EV_SYN, SYN_REPORT, 0⟩, ⟨EV_MSC, MSC_SCAN, 458792⟩,
       ⟨EV_KEY, KEY_ENTER, 0⟩, ⟨EV_SYN, SYN_REPORT, 0⟩] :=
  ⟨rfl, by decide, by decide⟩

/-- C1 (amended): for every starting state and times t0 ≤ t1 with t1 - t0 below the 200 ms
window, a fresh Enter press at t0 leaves the statics pending with anchor t0, and the Enter
release at t1 then writes exactly the seven events KEY RightCtrl 0, SYN_REPORT 0,
MSC_SCAN 458792, KEY Enter 1, SYN_REPORT 0, MSC_SCAN 458792, KEY Enter 0, in that order, and
returns the statics to idle. -/
theorem enter_tap_batch (st : Statics) (t0 t1 : Int) (h01 : t0 ≤ t1) (hw : t1 - t0 < delay) :
    statics_after st ⟨EV_KEY, KEY_ENTER, 1⟩ t0 = Except.ok ⟨true, t0⟩ ∧
    emitted ⟨true, t0⟩ ⟨EV_KEY, KEY_ENTER, 0⟩ t1 =
      [⟨EV_KEY, KEY_RIGHTCTRL, 0⟩, ⟨EV_SYN, SYN_REPORT, 0⟩, ⟨EV_MSC, MSC_SCAN, 458792⟩,
       ⟨EV_KEY, KEY_ENTER, 1⟩, ⟨EV_SYN, SYN_REPORT, 0⟩, ⟨EV_MSC, MSC_SCAN, 458792⟩,
       ⟨EV_KEY, KEY_ENTER, 0⟩] ∧
    statics_after ⟨true, t0⟩ ⟨EV_KEY, KEY_ENTER, 0⟩ t1 = Except.ok ⟨false, t0⟩ := by
  have _ := h01
  simp [emitted, statics_after, call, handle_event, send_syn, send_event_run, Except.map, hw,
    KEY_ENTER, KEY_CAPSLOCK, KEY_LEFTCTRL, KEY_RIGHTCTRL]

theorem enter_tap_batch_witness :
    (0 : Int) ≤ 150 * ticks_per_ms ∧ 150 * ticks_per_ms - 0 < delay ∧
    statics_after Statics.init ⟨EV_KEY, KEY_ENTER, 1⟩ 0 = Except.ok ⟨true, 0⟩ ∧
    emitted ⟨true, 0⟩ ⟨EV_KEY, KEY_ENTER, 0⟩ (150 * ticks_per_ms) =
      [⟨EV_KEY, KEY_RIGHTCTRL, 0⟩, ⟨EV_SYN, SYN_REPORT, 0⟩, ⟨EV_MSC, MSC_SCAN, 458792⟩,
       ⟨EV_KEY, KEY_ENTER, 1⟩, ⟨EV_SYN, SYN_REPORT, 0⟩, ⟨EV_MSC, MSC_SCAN, 458792⟩,
       ⟨EV_KEY, KEY_ENTER, 0⟩] ∧
    statics_after ⟨true, 0⟩ ⟨EV_KEY, KEY_ENTER, 0⟩ (150 * ticks_per_ms) = Except.ok ⟨false, 0⟩ :=
  ⟨by decide, by decide,
    enter_tap_batch Statics.init 0 (150 * ticks_per_ms) (by decide) (by decide)⟩

/-- C2 (as stated, refuted): the press of an unmapped key (code 30) is passed through as the
only event of its batch, so the batch does not end with a sync marker and is not the event
followed by a sync marker. -/
theorem passthrough_batch_has_no_sync :
    emitted Statics.init ⟨EV_KEY, 30, 1⟩ 0 = [⟨EV_KEY, 30, 1⟩] ∧
    (emitted Statics.init ⟨EV_KEY, 30, 1⟩ 0).getLast? ≠ some sync_marker ∧
    emitted Statics.init ⟨EV_KEY, 30, 1⟩ 0 ≠ [⟨EV_KEY, 30, 1⟩, sync_marker] := by
  decide

/-- The batch of any call is some synthetic events followed by the input event with its code
possibly rewritten; for an event that is not a key event nothing precedes it and the code is
kept. -/
theorem emitted_shape (st : Statics) (ev : input_event) (now : Int) :
    ∃ pre c, emitted st ev now = pre ++ [⟨ev.type, c, ev.value⟩] ∧
      (ev.type ≠ EV_KEY → pre = [] ∧ c = ev.code) := by
  unfold emitted call handle_event
  simp only [send_syn]
  split_ifs with h1 h2 h3 h4 h5 h6 h7
  · exact ⟨[⟨EV_KEY, KEY_RIGHTCTRL, 0⟩, ⟨EV_SYN, SYN_REPORT, 0⟩, ⟨EV_MSC, MSC_SCAN, 458792⟩,
      ⟨EV_KEY, KEY_ENTER, 1⟩, ⟨EV_SYN, SYN_REPORT, 0⟩, ⟨EV_MSC, MSC_SCAN, 458792⟩],
      KEY_ENTER, by simp [send_event_run], fun h => absurd h1 h⟩
  · exact ⟨[], KEY_LEFTCTRL, by simp [send_event_run], fun h => absurd h1 h⟩
  · exact ⟨[], KEY_CAPSLOCK, by simp [send_event_run], fun h => absurd h1 h⟩
  · exact ⟨[], KEY_ENTER, by simp [send_event_run], fun h => absurd h1 h⟩
  · exact ⟨[], KEY_RIGHTCTRL, by simp [send_event_run], fun h => absurd h1 h⟩
  · exact ⟨[], KEY_RIGHTCTRL, by simp [send_event_run], fun h => absurd h1 h⟩
  · exact ⟨[], ev.code, by simp [send_event_run], fun h => absurd h1 h⟩
  · exact ⟨[], ev.code, by simp [send_event_run], fun _ => ⟨rfl, rfl⟩⟩

/-- C2 (amended): for every state, input event and time the batch of the call ends with the
input event itself, its code possibly rewritten and its type and value kept; no sync marker is
appended, so the batch ends with a sync marker exactly when the input event is a sync marker;
and a call that passes an event through unmodified (an event that is not a key event, or a key
event whose code is none of CapsLock, LeftCtrl, RightCtrl, Enter) writes exactly that event. -/
theorem batch_ends_with_input_event (st : Statics) (ev : input_event) (now : Int) :
    (∃ pre c, emitted st ev now = pre ++ [⟨ev.type, c, ev.value⟩]) ∧
    ((emitted st ev now).getLast? = some sync_marker ↔ ev = sync_marker) ∧
    (ev.type ≠ EV_KEY ∨ (ev.code ≠ KEY_CAPSLOCK ∧ ev.code ≠ KEY_LEFTCTRL ∧
        ev.code ≠ KEY_RIGHTCTRL ∧ ev.code ≠ KEY_ENTER) → emitted st ev now = [ev]) := by
  obtain ⟨pre, c, hb, hnk⟩ := emitted_shape st ev now
  refine ⟨⟨pre, c, hb⟩, ?_, ?_⟩
  · rw [hb]
    simp only [List.getLast?_concat, Option.some.injEq]
    by_cases hk : ev.type = EV_KEY
    · constructor
      · intro h
        have h2 := congrArg input_event.type h
        simp [sync_marker, hk, EV_KEY, EV_SYN] at h2
      · intro h
        have h2 := congrArg input_event.type h
        simp [sync_marker, hk, EV_KEY, EV_SYN] at h2
    · obtain ⟨-, hc⟩ := hnk hk
      subst hc
      exact Iff.rfl
  · rintro (hk | ⟨h1, h2, h3, h4⟩)
    · obtain ⟨hp, hc⟩ := hnk hk
      rw [hb, hp, hc]
      rfl
    · unfold emitted call handle_event
      simp only [h1, h2, h3, h4, false_and, if_false]
      split_ifs <;> simp [send_event_run]

theorem batch_ends_with_input_event_witness :
    emitted Statics.init ⟨EV_KEY, 30, 1⟩ 0 = [⟨EV_KEY, 30, 1⟩] ∧
    emitted ⟨true, 0⟩ ⟨EV_MSC, MSC_SCAN, 458792⟩ 5 = [⟨EV_MSC, MSC_SCAN, 458792⟩] :=
  ⟨(batch_ends_with_input_event Statics.init ⟨EV_KEY, 30, 1⟩ 0).2.2
      (Or.inr ⟨by decide, by decide, by decide, by decide⟩),
   (batch_ends_with_input_event ⟨true, 0⟩ ⟨EV_MSC, MSC_SCAN, 458792⟩ 5).2.2
      (Or.inl (by decide))⟩

/-- C3: for every starting state and times with t1 - t0 at least the 200 ms window (the
boundary included), a fresh Enter press at t0 writes KEY RightCtrl 1 and nothing else, and the
Enter release at t1, no other event in between, writes KEY RightCtrl 0 and nothing else; so
neither call writes an Enter-coded key event or a MISC scan event. -/
theorem enter_hold_is_rightctrl (st : Statics) (t0 t1 : Int) (hh : delay ≤ t1 - t0) :
    emitted st ⟨EV_KEY, KEY_ENTER, 1⟩ t0 = [⟨EV_KEY, KEY_RIGHTCTRL, 1⟩] ∧
    statics_after st ⟨EV_KEY, KEY_ENTER, 1⟩ t0 = Except.ok ⟨true, t0⟩ ∧
    emitted ⟨true, t0⟩ ⟨EV_KEY, KEY_ENTER, 0⟩ t1 = [⟨EV_KEY, KEY_RIGHTCTRL, 0⟩] := by
  have hn : ¬ (t1 - t0 < delay) := not_lt.mpr hh
  simp [emitted, statics_after, call, handle_event, send_event_run, Except.map, hn,
    KEY_ENTER, KEY_CAPSLOCK, KEY_LEFTCTRL, KEY_RIGHTCTRL]

theorem enter_hold_is_rightctrl_witness :
    (delay ≤ 300 * ticks_per_ms - 0 ∧
      emitted Statics.init ⟨EV_KEY, KEY_ENTER, 1⟩ 0 = [⟨EV_KEY, KEY_RIGHTCTRL, 1⟩] ∧
      statics_after Statics.init ⟨EV_KEY, KEY_ENTER, 1⟩ 0 = Except.ok ⟨true, 0⟩ ∧
      emitted ⟨true, 0⟩ ⟨EV_KEY, KEY_ENTER, 0⟩ (300 * ticks_per_ms) =
        [⟨EV_KEY, KEY_RIGHTCTRL, 0⟩]) ∧
    (delay ≤ 200 * ticks_per_ms - 0 ∧
      emitted ⟨true, 0⟩ ⟨EV_KEY, KEY_ENTER, 0⟩ (200 * ticks_per_ms) =
        [⟨EV_KEY, KEY_RIGHTCTRL, 0⟩]) :=
  ⟨⟨by decide, enter_hold_is_rightctrl Statics.init 0 (300 * ticks_per_ms) (by decide)⟩,
   ⟨by decide, (enter_hold_is_rightctrl Statics.init 0 (200 * ticks_per_ms) (by decide)).2.2⟩⟩

/-- C4: for every starting state, key code k other than Enter and times t0 ≤ t1 ≤ t2 (any
timing), after a fresh Enter press at t0 (statics pending, anchor t0) and a press of k at t1
(statics idle), the Enter release at t2 writes KEY RightCtrl 0 and nothing else: no tap
sequence. -/
theorem interleaved_key_forfeits_tap (st : Statics) (k : Nat) (t0 t1 t2 : Int)
    (hk : k ≠ KEY_ENTER) (h01 : t0 ≤ t1) (h12 : t1 ≤ t2) :
    statics_after st ⟨EV_KEY, KEY_ENTER, 1⟩ t0 = Except.ok ⟨true, t0⟩ ∧
    statics_after ⟨true, t0⟩ ⟨EV_KEY, k, 1⟩ t1 = Except.ok ⟨false, t0⟩ ∧
    emitted ⟨false, t0⟩ ⟨EV_KEY, KEY_ENTER, 0⟩ t2 = [⟨EV_KEY, KEY_RIGHTCTRL, 0⟩] := by
  have _ := h01
  have _ := h12
  refine ⟨?_, ?_, ?_⟩
  · simp [statics_after, call, handle_event, send_event_run, Except.map,
      KEY_ENTER, KEY_CAPSLOCK, KEY_LEFTCTRL, KEY_RIGHTCTRL]
  · unfold statics_after call handle_event
    simp only [hk, false_and, if_false]
    split_ifs <;> simp [send_event_run, Except.map]
  · simp [emitted, call, handle_event, send_event_run,
      KEY_ENTER, KEY_CAPSLOCK, KEY_LEFTCTRL, KEY_RIGHTCTRL]

theorem interleaved_key_forfeits_tap_witness :
    (30 : Nat) ≠ KEY_ENTER ∧ (0 : Int) ≤ 20 * ticks_per_ms ∧
    20 * ticks_per_ms ≤ 50 * ticks_per_ms ∧
    statics_after Statics.init ⟨EV_KEY, KEY_ENTER, 1⟩ 0 = Except.ok ⟨true, 0⟩ ∧
    statics_after ⟨true, 0⟩ ⟨EV_KEY, 30, 1⟩ (20 * ticks_per_ms) = Except.ok ⟨false, 0⟩ ∧
    emitted ⟨false, 0⟩ ⟨EV_KEY, KEY_ENTER, 0⟩ (50 * ticks_per_ms) =
      [⟨EV_KEY, KEY_RIGHTCTRL, 0⟩] :=
  ⟨by decide, by decide, by decide,
    interleaved_key_forfeits_tap Statics.init 30 0 (20 * ticks_per_ms) (50 * ticks_per_ms)
      (by decide) (by decide) (by decide)⟩

/-! ## The static substitutions -/

/-- C5: for every state, time and value v (press, release, autorepeat alike), the key event
CapsLock v is written as the single event KEY LeftCtrl v and the key event LeftCtrl v as the
single event KEY CapsLock v; the value is kept. -/
theorem capslock_leftctrl_swap (st : Statics) (now v : Int) :
    emitted st ⟨EV_KEY, KEY_CAPSLOCK, v⟩ now = [⟨EV_KEY, KEY_LEFTCTRL, v⟩] ∧
    emitted st ⟨EV_KEY, KEY_LEFTCTRL, v⟩ now = [⟨EV_KEY, KEY_CAPSLOCK, v⟩] := by
  simp [emitted, call, handle_event, send_event_run,
    KEY_ENTER, KEY_CAPSLOCK, KEY_LEFTCTRL, KEY_RIGHTCTRL]

/-- C6: for every value v, the key event RightCtrl v is written as the single event
KEY Enter v, whatever the statics (pending or idle, any anchor) and the time are: the batch
for one state and time equals the batch for any other. -/
theorem rightctrl_to_enter (st st2 : Statics) (now now2 v : Int) :
    emitted st ⟨EV_KEY, KEY_RIGHTCTRL, v⟩ now = [⟨EV_KEY, KEY_ENTER, v⟩] ∧
    emitted st2 ⟨EV_KEY, KEY_RIGHTCTRL, v⟩ now2 = emitted st ⟨EV_KEY, KEY_RIGHTCTRL, v⟩ now := by
  simp [emitted, call, handle_event, send_event_run,
    KEY_ENTER, KEY_CAPSLOCK, KEY_LEFTCTRL, KEY_RIGHTCTRL]

/-- C7: for every state, time, value and key code k outside CapsLock, LeftCtrl, RightCtrl and
Enter, the batch of the key event is that event alone, with the same type, code and value; it
is the one event of the batch that is not a sync event. -/
theorem unmapped_key_passes_through (st : Statics) (now v : Int) (k : Nat)
    (h1 : k ≠ KEY_CAPSLOCK) (h2 : k ≠ KEY_LEFTCTRL) (h3 : k ≠ KEY_RIGHTCTRL)
    (h4 : k ≠ KEY_ENTER) :
    emitted st ⟨EV_KEY, k, v⟩ now = [⟨EV_KEY, k, v⟩] ∧
    (emitted st ⟨EV_KEY, k, v⟩ now).filter (fun e => decide (e.type ≠ EV_SYN))
      = [⟨EV_KEY, k, v⟩] := by
  have hb : emitted st ⟨EV_KEY, k, v⟩ now = [⟨EV_KEY, k, v⟩] := by
    simp [emitted, call, handle_event, send_event_run, h1, h2, h3, h4]
  rw [hb]
  exact ⟨rfl, by simp [EV_KEY, EV_SYN]⟩

theorem unmapped_key_passes_through_witness :
    (30 : Nat) ≠ KEY_CAPSLOCK ∧ (30 : Nat) ≠ KEY_LEFTCTRL ∧ (30 : Nat) ≠ KEY_RIGHTCTRL ∧
    (30 : Nat) ≠ KEY_ENTER ∧
    emitted ⟨true, 7⟩ ⟨EV_KEY, 30, 2⟩ 9 = [⟨EV_KEY, 30, 2⟩] ∧
    (emitted ⟨true, 7⟩ ⟨EV_KEY, 30, 2⟩ 9).filter (fun e => decide (e.type ≠ EV_SYN))
      = [⟨EV_KEY, 30, 2⟩] :=
  ⟨by decide, by decide, by decide, by decide,
    unmapped_key_passes_through ⟨true, 7⟩ 9 2 30 (by decide) (by decide) (by decide)
      (by decide)⟩

/-! ## The press anchor -/

/-- C8: for every state, event and time the call returns statics whose last_enter_press is
the time of the call when the event is a fresh Enter press (KEY, Enter, value 1) and is the
value from before the call for every other event (autorepeats, releases, other keys, events
that are not key events). -/
theorem last_enter_press_only_set_by_fresh_press (st : Statics) (ev : input_event)
    (now : Int) :
    ∃ st2, statics_after st ev now = Except.ok st2 ∧
      st2.last_enter_press =
        if ev.type = EV_KEY ∧ ev.code = KEY_ENTER ∧ ev.value = 1 then now
        else st.last_enter_press := by
  unfold statics_after call handle_event
  simp only [send_syn]
  split_ifs <;>
    simp_all [send_event_run, Except.map, KEY_ENTER, KEY_CAPSLOCK, KEY_LEFTCTRL, KEY_RIGHTCTRL]

/-- C9: for every starting state and times t0 ≤ ... ≤ t, after a fresh Enter press at t0
followed only by Enter autorepeats (value 2) at the intermediate times, the statics are pending
with anchor t0, not an autorepeat time; so the Enter release at t writes the tap sequence if
and only if t - t0 is below the 200 ms window, and otherwise writes KEY RightCtrl 0 alone. -/
theorem autorepeat_keeps_press_anchor (st : Statics) (t0 t : Int) (ts : List Int)
    (dev : List input_event) (hs : List.Sorted (fun a b => a ≤ b) (t0 :: ts ++ [t])) :
    calls uinput_ok st
        ((⟨EV_KEY, KEY_ENTER, 1⟩, t0) :: ts.map fun ti => (⟨EV_KEY, KEY_ENTER, 2⟩, ti)) dev
      = (Except.ok ⟨true, t0⟩,
          dev ++ ⟨EV_KEY, KEY_RIGHTCTRL, 1⟩ :: ts.map fun _ => ⟨EV_KEY, KEY_RIGHTCTRL, 2⟩) ∧
    (emitted ⟨true, t0⟩ ⟨EV_KEY, KEY_ENTER, 0⟩ t = tap_sequence ↔ t - t0 < delay) ∧
    emitted ⟨true, t0⟩ ⟨EV_KEY, KEY_ENTER, 0⟩ t =
      (if t - t0 < delay then tap_sequence else [⟨EV_KEY, KEY_RIGHTCTRL, 0⟩]) := by
  have _ := hs
  have hp : statics_after st ⟨EV_KEY, KEY_ENTER, 1⟩ t0 = Except.ok ⟨true, t0⟩ := by
    simp [statics_after, call, handle_event, send_event_run, Except.map,
      KEY_ENTER, KEY_CAPSLOCK, KEY_LEFTCTRL, KEY_RIGHTCTRL]
  have he : emitted st ⟨EV_KEY, KEY_ENTER, 1⟩ t0 = [⟨EV_KEY, KEY_RIGHTCTRL, 1⟩] := by
    simp [emitted, call, handle_event, send_event_run,
      KEY_ENTER, KEY_CAPSLOCK, KEY_LEFTCTRL, KEY_RIGHTCTRL]
  have hr : emitted ⟨true, t0⟩ ⟨EV_KEY, KEY_ENTER, 0⟩ t =
      (if t - t0 < delay then tap_sequence else [⟨EV_KEY, KEY_RIGHTCTRL, 0⟩]) := by
    by_cases hw : t - t0 < delay
    · simp [emitted, call, handle_event, send_syn, send_event_run, hw, tap_sequence]
    · simp [emitted, call, handle_event, send_event_run, hw,
        KEY_ENTER, KEY_CAPSLOCK, KEY_LEFTCTRL, KEY_RIGHTCTRL]
  refine ⟨?_, ?_, hr⟩
  · rw [calls_cons _ _ _ _ _ _ hp, calls_autorepeats, he]
    simp
  · rw [hr]
    by_cases hw : t - t0 < delay
    · simp [hw]
    · simp [hw, tap_sequence]

theorem autorepeat_keeps_press_anchor_witness :
    List.Sorted (fun a b : Int => a ≤ b)
      (0 :: [50 * ticks_per_ms] ++ [210 * ticks_per_ms]) ∧
    calls uinput_ok Statics.init
        [(⟨EV_KEY, KEY_ENTER, 1⟩, 0), (⟨EV_KEY, KEY_ENTER, 2⟩, 50 * ticks_per_ms)] []
      = (Except.ok ⟨true, 0⟩, [⟨EV_KEY, KEY_RIGHTCTRL, 1⟩, ⟨EV_KEY, KEY_RIGHTCTRL, 2⟩]) ∧
    ¬ (210 * ticks_per_ms - 0 < delay) ∧ 210 * ticks_per_ms - 50 * ticks_per_ms < delay ∧
    emitted ⟨true, 0⟩ ⟨EV_KEY, KEY_ENTER, 0⟩ (210 * ticks_per_ms) =
      [⟨EV_KEY, KEY_RIGHTCTRL, 0⟩] :=
  have h := autorepeat_keeps_press_anchor Statics.init 0 (210 * ticks_per_ms)
    [50 * ticks_per_ms] [] (by decide)
  ⟨by decide, h.1, by decide, by decide, h.2.2⟩

/-- C10: for every state and time, an Enter event with value 1 (fresh press) or 2
(autorepeat) is written as the single event KEY RightCtrl with the same value, so the batch
has no other key event and no MISC event; the call leaves enter_pending true (the state is
PENDING after a fresh press), and a fresh press also records the time of the call. -/
theorem enter_press_is_rightctrl_and_pending (st : Statics) (now v : Int)
    (hv : v = 1 ∨ v = 2) :
    emitted st ⟨EV_KEY, KEY_ENTER, v⟩ now = [⟨EV_KEY, KEY_RIGHTCTRL, v⟩] ∧
    (∃ st2, statics_after st ⟨EV_KEY, KEY_ENTER, v⟩ now = Except.ok st2 ∧
      st2.enter_pending = true) ∧
    statics_after st ⟨EV_KEY, KEY_ENTER, 1⟩ now = Except.ok ⟨true, now⟩ := by
  have hv0 : v ≠ 0 := by
    rcases hv with h | h <;> rw [h] <;> decide
  refine ⟨?_, ?_, ?_⟩
  · simp [emitted, call, handle_event, send_event_run, hv0,
      KEY_ENTER, KEY_CAPSLOCK, KEY_LEFTCTRL, KEY_RIGHTCTRL]
    split_ifs <;> rfl
  · unfold statics_after call handle_event
    simp only [hv0, false_and, and_false, if_false]
    split_ifs <;> simp_all [send_event_run, Except.map, KEY_ENTER, KEY_CAPSLOCK, KEY_LEFTCTRL,
      KEY_RIGHTCTRL]
  · simp [statics_after, call, handle_event, send_event_run, Except.map,
      KEY_ENTER, KEY_CAPSLOCK, KEY_LEFTCTRL, KEY_RIGHTCTRL]

theorem enter_press_is_rightctrl_and_pending_witness :
    ((1 : Int) = 1 ∨ (1 : Int) = 2) ∧
    emitted Statics.init ⟨EV_KEY, KEY_ENTER, 1⟩ 5 = [⟨EV_KEY, KEY_RIGHTCTRL, 1⟩] ∧
    (∃ st2, statics_after Statics.init ⟨EV_KEY, KEY_ENTER, 1⟩ 5 = Except.ok st2 ∧
      st2.enter_pending = true) ∧
    statics_after Statics.init ⟨EV_KEY, KEY_ENTER, 1⟩ 5 = Except.ok ⟨true, 5⟩ :=
  ⟨by decide, enter_press_is_rightctrl_and_pending Statics.init 5 1 (by decide)⟩

/-! ## State effects of pass-through keys and the scan events of the tap -/

/-- C11: for every state, every KEY event whose code is none of CapsLock, LeftCtrl, RightCtrl,
Enter, and all times, the first translation leaves the statics idle with the anchor of the
starting state, and translating the same event again leaves exactly those statics: both
enter_pending and last_enter_press are as the first translation left them, and
last_enter_press is still the value of the starting state. -/
theorem unmapped_key_twice_same_statics (st : Statics) (k : Nat) (v now1 now2 : Int)
    (h1 : k ≠ KEY_CAPSLOCK) (h2 : k ≠ KEY_LEFTCTRL) (h3 : k ≠ KEY_RIGHTCTRL)
    (h4 : k ≠ KEY_ENTER) :
    statics_after st ⟨EV_KEY, k, v⟩ now1 = Except.ok ⟨false, st.last_enter_press⟩ ∧
    statics_after ⟨false, st.last_enter_press⟩ ⟨EV_KEY, k, v⟩ now2
      = Except.ok ⟨false, st.last_enter_press⟩ := by
  constructor <;>
    simp [statics_after, call, handle_event, send_event_run, Except.map, h1, h2, h3, h4]

theorem unmapped_key_twice_same_statics_witness :
    (30 : Nat) ≠ KEY_CAPSLOCK ∧ (30 : Nat) ≠ KEY_LEFTCTRL ∧ (30 : Nat) ≠ KEY_RIGHTCTRL ∧
    (30 : Nat) ≠ KEY_ENTER ∧
    statics_after ⟨true, 7⟩ ⟨EV_KEY, 30, 1⟩ 8 = Except.ok ⟨false, 7⟩ ∧
    statics_after ⟨false, 7⟩ ⟨EV_KEY, 30, 1⟩ 9 = Except.ok ⟨false, 7⟩ :=
  ⟨by decide, by decide, by decide, by decide,
    unmapped_key_twice_same_statics ⟨true, 7⟩ 30 1 8 9 (by decide) (by decide) (by decide)
      (by decide)⟩

/-- In the tap sequence every Enter-coded key event stands right after a scan event. -/
theorem tap_sequence_enter_after_scan (i : Nat) (e : input_event)
    (h : tap_sequence[i]? = some e) (ht : e.type = EV_KEY) (hc : e.code = KEY_ENTER) :
    ∃ j, i = j + 1 ∧ tap_sequence[j]? = some ⟨EV_MSC, MSC_SCAN, 458792⟩ := by
  have hi : i < 7 := by
    obtain ⟨hlt, -⟩ := List.getElem?_eq_some.mp h
    simpa [tap_sequence] using hlt
  interval_cases i <;> simp [tap_sequence] at h <;> subst h <;>
    simp [EV_KEY, EV_SYN, EV_MSC, KEY_ENTER, KEY_RIGHTCTRL] at ht hc
  · exact ⟨2, rfl, rfl⟩
  · exact ⟨5, rfl, rfl⟩

/-- C12: whenever the call takes the tap branch (an Enter release while pending, within the
window) its batch is the tap sequence; every key event with code Enter in that batch (the
synthetic Enter press and the coerced Enter release) stands immediately after an event MISC
MSC_SCAN 458792, and the MISC events of the batch are exactly two such scan events. -/
theorem tap_enter_events_follow_scan (st : Statics) (now : Int)
    (hp : st.enter_pending = true) (hw : now - st.last_enter_press < delay) :
    emitted st ⟨EV_KEY, KEY_ENTER, 0⟩ now = tap_sequence ∧
    (∀ i e, (emitted st ⟨EV_KEY, KEY_ENTER, 0⟩ now)[i]? = some e →
      e.type = EV_KEY → e.code = KEY_ENTER →
      ∃ j, i = j + 1 ∧
        (emitted st ⟨EV_KEY, KEY_ENTER, 0⟩ now)[j]? = some ⟨EV_MSC, MSC_SCAN, 458792⟩) ∧
    (emitted st ⟨EV_KEY, KEY_ENTER, 0⟩ now).filter (fun e => decide (e.type = EV_MSC))
      = [⟨EV_MSC, MSC_SCAN, 458792⟩, ⟨EV_MSC, MSC_SCAN, 458792⟩] := by
  have hb : emitted st ⟨EV_KEY, KEY_ENTER, 0⟩ now = tap_sequence := by
    simp [emitted, call, handle_event, send_syn, send_event_run, hp, hw, tap_sequence]
  rw [hb]
  exact ⟨rfl, tap_sequence_enter_after_scan, by decide⟩

theorem tap_enter_events_follow_scan_witness :
    (150 * ticks_per_ms - 0 < delay) ∧
    emitted ⟨true, 0⟩ ⟨EV_KEY, KEY_ENTER, 0⟩ (150 * ticks_per_ms) = tap_sequence ∧
    (∀ i e, (emitted ⟨true, 0⟩ ⟨EV_KEY, KEY_ENTER, 0⟩ (150 * ticks_per_ms))[i]? = some e →
      e.type = EV_KEY → e.code = KEY_ENTER →
      ∃ j, i = j + 1 ∧
        (emitted ⟨true, 0⟩ ⟨EV_KEY, KEY_ENTER, 0⟩ (150 * ticks_per_ms))[j]?
          = some ⟨EV_MSC, MSC_SCAN, 458792⟩) ∧
    (emitted ⟨true, 0⟩ ⟨EV_KEY, KEY_ENTER, 0⟩ (150 * ticks_per_ms)).filter
        (fun e => decide (e.type = EV_MSC))
      = [⟨EV_MSC, MSC_SCAN, 458792⟩, ⟨EV_MSC, MSC_SCAN, 458792⟩] :=
  ⟨by decide,
    tap_enter_events_follow_scan ⟨true, 0⟩ (150 * ticks_per_ms) rfl (by decide)⟩

/-! ## When the pending flag is set and cleared -/

/-- C13 (failing input): from the initial statics, a fresh Enter press at 0 ms, a press of
key 30 at 10 ms and an Enter release at 20 ms (written as RightCtrl events around the key
press) leave enter_pending true, and a further Enter release at 30 ms then writes the tap
sequence although key 30 was processed after the most recent fresh Enter press; the same
happens when the third event is an Enter autorepeat instead of an Enter release. -/
theorem tap_fires_after_interleaved_key :
    calls uinput_ok Statics.init
        [(⟨EV_KEY, KEY_ENTER, 1⟩, 0), (⟨EV_KEY, 30, 1⟩, 10 * ticks_per_ms),
         (⟨EV_KEY, KEY_ENTER, 0⟩, 20 * ticks_per_ms)] []
      = (Except.ok ⟨true, 0⟩,
          [⟨EV_KEY, KEY_RIGHTCTRL, 1⟩, ⟨EV_KEY, 30, 1⟩, ⟨EV_KEY, KEY_RIGHTCTRL, 0⟩]) ∧
    calls uinput_ok Statics.init
        [(⟨EV_KEY, KEY_ENTER, 1⟩, 0), (⟨EV_KEY, 30, 1⟩, 10 * ticks_per_ms),
         (⟨EV_KEY, KEY_ENTER, 2⟩, 20 * ticks_per_ms)] []
      = (Except.ok ⟨true, 0⟩,
          [⟨EV_KEY, KEY_RIGHTCTRL, 1⟩, ⟨EV_KEY, 30, 1⟩, ⟨EV_KEY, KEY_RIGHTCTRL, 2⟩]) ∧
    emitted ⟨true, 0⟩ ⟨EV_KEY, KEY_ENTER, 0⟩ (30 * ticks_per_ms) = tap_sequence :=
  ⟨rfl, rfl, by decide⟩

/-- C14 (failing input): an Enter release that is not a tap leaves enter_pending true, both
when the statics were idle and when the release comes 300 ms after the press. -/
theorem enter_release_outside_tap_leaves_pending :
    statics_after ⟨false, 0⟩ ⟨EV_KEY, KEY_ENTER, 0⟩ (50 * ticks_per_ms)
      = Except.ok ⟨true, 0⟩ ∧
    statics_after ⟨true, 0⟩ ⟨EV_KEY, KEY_ENTER, 0⟩ (300 * ticks_per_ms)
      = Except.ok ⟨true, 0⟩ ∧
    emitted ⟨true, 0⟩ ⟨EV_KEY, KEY_ENTER, 0⟩ (300 * ticks_per_ms)
      = [⟨EV_KEY, KEY_RIGHTCTRL, 0⟩] :=
  ⟨rfl, rfl, by decide⟩

/-- C15: for every state and time, a KEY event whose code is not Enter, with any value
(CapsLock, LeftCtrl and RightCtrl included), leaves enter_pending false and the anchor
unchanged; and so does an Enter release that is classified as a tap. -/
theorem other_key_or_tap_clears_pending (st : Statics) (k : Nat) (v now : Int)
    (h : k ≠ KEY_ENTER ∨
      (k = KEY_ENTER ∧ v = 0 ∧ st.enter_pending = true ∧ now - st.last_enter_press < delay)) :
    statics_after st ⟨EV_KEY, k, v⟩ now = Except.ok ⟨false, st.last_enter_press⟩ := by
  rcases h with hk | ⟨hk, hv, hp, hw⟩
  · unfold statics_after call handle_event
    simp only [hk, false_and, if_false]
    split_ifs <;> simp [send_event_run, Except.map]
  · subst hk hv
    simp [statics_after, call, handle_event, send_syn, send_event_run, Except.map, hp, hw]

theorem other_key_or_tap_clears_pending_witness :
    statics_after ⟨true, 0⟩ ⟨EV_KEY, KEY_RIGHTCTRL, 2⟩ 5 = Except.ok ⟨false, 0⟩ ∧
    statics_after ⟨true, 0⟩ ⟨EV_KEY, KEY_ENTER, 0⟩ (150 * ticks_per_ms)
      = Except.ok ⟨false, 0⟩ :=
  ⟨other_key_or_tap_clears_pending ⟨true, 0⟩ KEY_RIGHTCTRL 2 5 (Or.inl (by decide)),
   other_key_or_tap_clears_pending ⟨true, 0⟩ KEY_ENTER 0 (150 * ticks_per_ms)
     (Or.inr ⟨rfl, rfl, rfl, by decide⟩)⟩

/-! ## Events that are not key events -/

/-- An event that is not a key event is written unchanged and leaves the statics alone. -/
theorem non_key_call (st : Statics) (ev : input_event) (now : Int) (ht : ev.type ≠ EV_KEY) :
    emitted st ev now = [ev] ∧ statics_after st ev now = Except.ok st := by
  simp [emitted, statics_after, call, handle_event, send_event_run, Except.map, ht]

/-- A run of events none of which is a key event, followed by further events: the run is
copied to the log and the further events are handled in the unchanged statics. -/
theorem calls_non_key_append (st : Statics) (evs rest : List (input_event × Int))
    (dev : List input_event) (hall : ∀ p ∈ evs, p.1.type ≠ EV_KEY) :
    calls uinput_ok st (evs ++ rest) dev
      = calls uinput_ok st rest (dev ++ evs.map Prod.fst) := by
  induction evs generalizing dev with
  | nil => simp
  | cons p evs ih =>
    obtain ⟨ev, now⟩ := p
    have ht : ev.type ≠ EV_KEY := hall (ev, now) (List.mem_cons_self _ _)
    obtain ⟨he, hs⟩ := non_key_call st ev now ht
    rw [List.cons_append, calls_cons _ _ _ _ _ _ hs, he,
      ih _ (fun q hq => hall q (List.mem_cons_of_mem _ hq))]
    simp

/-- C16: for every state, time and event whose type is not KEY (any code and value, a code
equal to Enter's included), the call writes exactly that event, unchanged, as its single
output and leaves enter_pending and last_enter_press unchanged; so when only such events (the
keyboard's sync and scan events) come between a pending Enter press at t0 and the Enter release
at t1 inside the window, they are copied to the device and the release still writes the tap
sequence. -/
theorem non_key_event_passes_through (st : Statics) (t c : Nat) (v now : Int)
    (ht : t ≠ EV_KEY) :
    emitted st ⟨t, c, v⟩ now = [⟨t, c, v⟩] ∧
    statics_after st ⟨t, c, v⟩ now = Except.ok st ∧
    (∀ (evs : List (input_event × Int)) (dev : List input_event) (t0 t1 : Int),
      (∀ p ∈ evs, p.1.type ≠ EV_KEY) → t1 - t0 < delay →
      calls uinput_ok ⟨true, t0⟩ (evs ++ [(⟨EV_KEY, KEY_ENTER, 0⟩, t1)]) dev
        = (Except.ok ⟨false, t0⟩, dev ++ evs.map Prod.fst ++ tap_sequence)) := by
  obtain ⟨he, hs⟩ := non_key_call st ⟨t, c, v⟩ now ht
  refine ⟨he, hs, ?_⟩
  intro evs dev t0 t1 hall hw
  have hr : statics_after ⟨true, t0⟩ ⟨EV_KEY, KEY_ENTER, 0⟩ t1 = Except.ok ⟨false, t0⟩ := by
    simp [statics_after, call, handle_event, send_syn, send_event_run, Except.map, hw]
  have hb : emitted ⟨true, t0⟩ ⟨EV_KEY, KEY_ENTER, 0⟩ t1 = tap_sequence := by
    simp [emitted, call, handle_event, send_syn, send_event_run, hw, tap_sequence]
  rw [calls_non_key_append _ _ _ _ hall, calls_cons _ _ _ _ _ _ hr, hb]
  simp [calls, handle_events]

theorem non_key_event_passes_through_witness :
    EV_MSC ≠ EV_KEY ∧
    emitted ⟨true, 0⟩ ⟨EV_MSC, KEY_ENTER, 1⟩ 5 = [⟨EV_MSC, KEY_ENTER, 1⟩] ∧
    statics_after ⟨true, 0⟩ ⟨EV_MSC, KEY_ENTER, 1⟩ 5 = Except.ok ⟨true, 0⟩ ∧
    calls uinput_ok ⟨true, 0⟩
        ([(⟨EV_SYN, SYN_REPORT, 0⟩, 1), (⟨EV_MSC, MSC_SCAN, 458792⟩, 90 * ticks_per_ms)]
          ++ [(⟨EV_KEY, KEY_ENTER, 0⟩, 100 * ticks_per_ms)]) []
      = (Except.ok ⟨false, 0⟩,
          [] ++ [((⟨EV_SYN, SYN_REPORT, 0⟩ : input_event), (1 : Int)),
            (⟨EV_MSC, MSC_SCAN, 458792⟩, 90 * ticks_per_ms)].map Prod.fst ++ tap_sequence) :=
  have h := non_key_event_passes_through ⟨true, 0⟩ EV_MSC KEY_ENTER 1 5 (by decide)
  ⟨by decide, h.1, h.2.1,
    h.2.2 [(⟨EV_SYN, SYN_REPORT, 0⟩, 1), (⟨EV_MSC, MSC_SCAN, 458792⟩, 90 * ticks_per_ms)] []
      0 (100 * ticks_per_ms) (by decide) (by decide)⟩

/-! ## Key releases and the input event in the batch -/

/-- The batch of an Enter release: the tap sequence in the tap branch, else RightCtrl up. -/
theorem enter_release_batch (st : Statics) (now : Int) :
    emitted st ⟨EV_KEY, KEY_ENTER, 0⟩ now =
      (if st.enter_pending = true ∧ now - st.last_enter_press < delay then tap_sequence
       else [⟨EV_KEY, KEY_RIGHTCTRL, 0⟩]) := by
  by_cases hc : st.enter_pending = true ∧ now - st.last_enter_press < delay
  · rw [if_pos hc]
    simp [emitted, call, handle_event, send_syn, send_event_run, hc.1, hc.2, tap_sequence]
  · rw [if_neg hc]
    simp only [emitted, call, handle_event]
    simp [send_event_run, hc, KEY_ENTER, KEY_CAPSLOCK, KEY_LEFTCTRL, KEY_RIGHTCTRL]

/-- In the tap sequence the Enter press has the RightCtrl release before it and the Enter
release after it. -/
theorem tap_sequence_enter_press (i : Nat)
    (h : tap_sequence[i]? = some ⟨EV_KEY, KEY_ENTER, 1⟩) :
    (∃ j, i < j ∧ tap_sequence[j]? = some ⟨EV_KEY, KEY_ENTER, 0⟩) ∧
    (∃ j, j < i ∧ tap_sequence[j]? = some ⟨EV_KEY, KEY_RIGHTCTRL, 0⟩) := by
  have hi : i < 7 := by
    obtain ⟨hlt, -⟩ := List.getElem?_eq_some.mp h
    simpa [tap_sequence] using hlt
  interval_cases i <;>
    simp [tap_sequence, EV_KEY, EV_SYN, EV_MSC, KEY_ENTER, KEY_RIGHTCTRL, SYN_REPORT,
      MSC_SCAN] at h
  exact ⟨⟨6, by decide, rfl⟩, ⟨0, by decide, rfl⟩⟩

/-- C17: for every state and time, the batch of an Enter release (the tap sequence in the tap
branch, the single event KEY RightCtrl 0 otherwise) contains the RightCtrl release whether or
not the tap fires; every Enter press (KEY, Enter, 1) in the batch is followed later in the
batch by an Enter release (KEY, Enter, 0) and has the RightCtrl release before it. -/
theorem enter_release_leaves_no_key_down (st : Statics) (now : Int) :
    emitted st ⟨EV_KEY, KEY_ENTER, 0⟩ now =
      (if st.enter_pending = true ∧ now - st.last_enter_press < delay then tap_sequence
       else [⟨EV_KEY, KEY_RIGHTCTRL, 0⟩]) ∧
    ⟨EV_KEY, KEY_RIGHTCTRL, 0⟩ ∈ emitted st ⟨EV_KEY, KEY_ENTER, 0⟩ now ∧
    (∀ i : Nat,
      (emitted st ⟨EV_KEY, KEY_ENTER, 0⟩ now)[i]? = some (input_event.mk EV_KEY KEY_ENTER 1) →
      (∃ j : Nat, i < j ∧
        (emitted st ⟨EV_KEY, KEY_ENTER, 0⟩ now)[j]?
          = some (input_event.mk EV_KEY KEY_ENTER 0)) ∧
      (∃ j : Nat, j < i ∧
        (emitted st ⟨EV_KEY, KEY_ENTER, 0⟩ now)[j]?
          = some (input_event.mk EV_KEY KEY_RIGHTCTRL 0))) := by
  have hb := enter_release_batch st now
  refine ⟨hb, ?_, ?_⟩
  · rw [hb]
    split_ifs <;> simp [tap_sequence]
  · rw [hb]
    split_ifs
    · exact tap_sequence_enter_press
    · intro i h
      rcases i with _ | i
      · simp [KEY_ENTER, KEY_RIGHTCTRL] at h
      · simp at h

/-- On a device that accepts the writes every call returns: no exception is thrown. -/
theorem statics_after_ok (st : Statics) (ev : input_event) (now : Int) :
    ∃ st2, statics_after st ev now = Except.ok st2 := by
  unfold statics_after call handle_event
  simp only [send_syn]
  split_ifs <;> simp [send_event_run, Except.map]

/-- C18 (as stated, refuted): the sync marker read from the keyboard is written as the only
event of its batch, so the batch has no event that is not a sync event: there is no last
non-sync event carrying the type and value of the input. -/
theorem sync_input_batch_has_no_non_sync_event :
    emitted Statics.init ⟨EV_SYN, SYN_REPORT, 0⟩ 0 = [⟨EV_SYN, SYN_REPORT, 0⟩] ∧
    ((emitted Statics.init ⟨EV_SYN, SYN_REPORT, 0⟩ 0).filter
      (fun e => decide (e.type ≠ EV_SYN))).getLast? = none := by
  decide

/-- C18 (amended): for every state, time and input event, the call returns (on a device that
accepts the writes) and its batch is not empty; the last event of the batch is the input event
with at most the code rewritten, so it has the type and the value of the input; it is also the
last non-sync event of the batch whenever the input event is not itself a sync event, and a
sync input event is written alone. -/
theorem batch_keeps_input_type_and_value (st : Statics) (ev : input_event) (now : Int) :
    (∃ st2, statics_after st ev now = Except.ok st2) ∧
    emitted st ev now ≠ [] ∧
    (∃ c, (emitted st ev now).getLast? = some ⟨ev.type, c, ev.value⟩) ∧
    (ev.type ≠ EV_SYN →
      ∃ c, ((emitted st ev now).filter (fun e => decide (e.type ≠ EV_SYN))).getLast?
        = some ⟨ev.type, c, ev.value⟩) ∧
    (ev.type = EV_SYN → emitted st ev now = [ev]) := by
  obtain ⟨pre, c, hb, hnk⟩ := emitted_shape st ev now
  refine ⟨?_, ?_, ⟨c, ?_⟩, ?_, ?_⟩
  · exact statics_after_ok st ev now
  · rw [hb]; simp
  · rw [hb, List.getLast?_concat]
  · intro hns
    refine ⟨c, ?_⟩
    rw [hb, List.filter_append]
    simp [hns]
  · intro hs
    have hk : ev.type ≠ EV_KEY := by rw [hs]; decide
    obtain ⟨hp, hc⟩ := hnk hk
    rw [hb, hp, hc]
    rfl

theorem batch_keeps_input_type_and_value_witness :
    (∃ c, ((emitted ⟨true, 0⟩ ⟨EV_KEY, KEY_ENTER, 0⟩ (150 * ticks_per_ms)).filter
        (fun e => decide (e.type ≠ EV_SYN))).getLast? = some ⟨EV_KEY, c, 0⟩) ∧
    emitted Statics.init ⟨EV_SYN, SYN_REPORT, 0⟩ 0 = [⟨EV_SYN, SYN_REPORT, 0⟩] :=
  ⟨(batch_keeps_input_type_and_value ⟨true, 0⟩ ⟨EV_KEY, KEY_ENTER, 0⟩
      (150 * ticks_per_ms)).2.2.2.1 (by decide),
   (batch_keeps_input_type_and_value Statics.init ⟨EV_SYN, SYN_REPORT, 0⟩ 0).2.2.2.2 rfl⟩

end Funkeys
